import Mathlib

/-!
# Verification of `torchshapelets` discrepancy functions

Shallow embedding of `src/torchshapelets/src/torchshapelets/discrepancies.py`.

Tensors are modelled as a shape (a list of dimension sizes) together with a
total entry function from multi-indices to rationals; the final norm
reduction produces real-valued tensors (`RTensor`).  The `signatory`
library is external to the repository, so it is abstracted as a
`SignatureProvider` (the spec's SignatureProvider capability): any function
from a sampled path to a logsignature vector, plus the channel-count
function.  The native kernel `_impl.l2_discrepancy` is C++ code of the
repository that is not part of the Python sources, so it is modelled from
the spec (see `l2_discrepancy` below).

Python exceptions are modelled with `Except`/`Option`: raising an exception
before doing any tensor work corresponds to returning the error without
constructing a result value.
-/

/-- A tensor: a shape together with a total entry function on multi-indices
(entries are rationals; out-of-range indices are harmless junk). -/
structure Tensor where
  shape : List ℕ
  entry : List ℕ → ℚ

/-- A real-valued tensor, produced by the final norm reduction. -/
structure RTensor where
  shape : List ℕ
  entry : List ℕ → ℝ

/-- The all-zero scalar tensor, used as a default. -/
def Tensor.null : Tensor := ⟨[], fun _ => 0⟩

/-- The all-zero scalar real tensor, used as a default. -/
def RTensor.null : RTensor := ⟨[], fun _ => 0⟩

/-- A tensor of the given shape whose entries are all zero. -/
def zeros (s : List ℕ) : Tensor := ⟨s, fun _ => 0⟩

/-- `t.unsqueeze(-1)`: append a trailing dimension of size 1. -/
def Tensor.unsqueezeLast (t : Tensor) : Tensor :=
  ⟨t.shape ++ [1], fun idx => t.entry idx.dropLast⟩

/-- `t.unsqueeze(0)`: prepend a leading dimension of size 1. -/
def Tensor.unsqueezeLead (t : Tensor) : Tensor :=
  ⟨1 :: t.shape, fun idx => t.entry idx.tail⟩

/-- `t.unsqueeze(-2)`: insert a dimension of size 1 before the last one. -/
def Tensor.unsqueezeBeforeLast (t : Tensor) : Tensor :=
  ⟨t.shape.dropLast ++ [1, t.shape.getLastD 0],
   fun idx => t.entry (idx.dropLast.dropLast ++ [idx.getLastD 0])⟩

/-- `t.unsqueeze(0).expand(d, *t.shape)`: prepend a broadcast dimension of
size `d` (the body of the time-channel loops in `forward`, lines 184-187). -/
def Tensor.expandLead (t : Tensor) (d : ℕ) : Tensor :=
  ⟨d :: t.shape, fun idx => t.entry idx.tail⟩

/-- The loop `for dim in batch_dims: tc = tc.unsqueeze(0).expand(dim, *tc.shape)`
from `LogsignatureDiscrepancy.forward` (lines 184-187).  Note each new
dimension is prepended, so the resulting leading dimensions are the batch
dimensions in REVERSED order. -/
def broadcastTimeChannel (dims : List ℕ) (tc : Tensor) : Tensor :=
  dims.foldl Tensor.expandLead tc

/-- Index remapping used by `expand`: positions where the source dimension
is 1 are broadcast (read index 0). -/
def broadcastIdx (shape idx : List ℕ) : List ℕ :=
  (shape.zip idx).map fun p => if p.1 = 1 then 0 else p.2

/-- `t.expand(*s)`: broadcast dimensions of size 1 up to the target shape
`s` (same rank, as used in `forward` lines 205-206). -/
def Tensor.expand (t : Tensor) (s : List ℕ) : Tensor :=
  ⟨s, fun idx => t.entry (broadcastIdx t.shape idx)⟩

/-- Row-major linearisation of a multi-index with respect to a shape. -/
def flattenIdx (shape idx : List ℕ) : ℕ :=
  (shape.zip idx).foldl (fun acc p => acc * p.1 + p.2) 0

/-- Inverse of `flattenIdx`: row-major digits of a flat index. -/
def unflattenIdx : List ℕ → ℕ → List ℕ
  | [], _ => []
  | _ :: rest, n => n / rest.prod :: unflattenIdx rest (n % rest.prod)

/-- `t.view(s)`: reinterpret the (row-major) data of `t` with shape `s`. -/
def Tensor.view (t : Tensor) (s : List ℕ) : Tensor :=
  ⟨s, fun idx => t.entry (unflattenIdx t.shape (flattenIdx s idx))⟩

/-- `t.size(-1)`. -/
def Tensor.lastSize (t : Tensor) : ℕ := t.shape.getLastD 0

/-- `t.size(-2)`. -/
def Tensor.penultSize (t : Tensor) : ℕ := t.shape.dropLast.getLastD 0

/-- `torch.cat([a, b], dim=-1)`.  Fails (a PyTorch `RuntimeError`) unless
the two shapes agree on every dimension except the last. -/
def Tensor.catLast (a b : Tensor) : Option Tensor :=
  if a.shape.dropLast = b.shape.dropLast ∧ a.shape ≠ [] ∧ b.shape ≠ [] then
    some ⟨a.shape.dropLast ++ [a.lastSize + b.lastSize],
      fun idx =>
        if idx.getLastD 0 < a.lastSize then a.entry idx
        else b.entry (idx.dropLast ++ [idx.getLastD 0 - a.lastSize])⟩
  else none

/-- Elementwise subtraction (shapes already broadcast to agreement). -/
def Tensor.sub (a b : Tensor) : Tensor :=
  ⟨a.shape, fun idx => a.entry idx - b.entry idx⟩

/-- `t @ lin` where `lin` is a square matrix acting on the last axis. -/
def Tensor.matmulLast (t lin : Tensor) : Tensor :=
  ⟨t.shape, fun idx =>
    ((List.range (lin.shape.getD 0 0)).map fun j =>
      t.entry (idx.dropLast ++ [j]) * lin.entry [j, idx.getLastD 0]).sum⟩

/-- `t * lin` where `lin` is a vector broadcast along the last axis. -/
def Tensor.mulVecLast (t lin : Tensor) : Tensor :=
  ⟨t.shape, fun idx => t.entry idx * lin.entry [idx.getLastD 0]⟩

/-- `v.norm(p)` for a vector `v`, with finite `p`:
`(sum_i |v_i| ^ p) ^ (1 / p)` (real powers). -/
noncomputable def torchNorm (p : ℝ) (v : List ℚ) : ℝ :=
  ((v.map fun x : ℚ => |(x : ℝ)| ^ p).sum) ^ (1 / p)

/-- `t.norm(p, dim=-1)`: reduce the last axis with the `p`-norm. -/
noncomputable def Tensor.normLast (t : Tensor) (p : ℝ) : RTensor :=
  ⟨t.shape.dropLast,
   fun idx => torchNorm p ((List.range t.lastSize).map fun k => t.entry (idx ++ [k]))⟩

/-- The error taxonomy of the spec (§7): `ConfigurationError` models the
`assert` on `metric_type`, `DependencyMissingError` the `ImportError` when
`signatory` is absent, `ShapeError` the call-time shape checks. -/
inductive DiscErr where
  | configurationError : DiscErr
  | dependencyMissing : DiscErr
  | shapeError : DiscErr
deriving DecidableEq, Repr

/-- The spec's SignatureProvider capability (the external `signatory`
library): `logsigChannels c depth` is `signatory.logsignature_channels`,
and `logsigEntry depth path j` is coordinate `j` of the depth-`depth`
logsignature of the sampled path `path` (a list of `L` rows of `C`
channels).  The library is external to the repository, so it is kept
abstract; theorems quantify over providers or instantiate concrete ones. -/
structure SignatureProvider where
  logsigChannels : ℕ → ℕ → ℕ
  logsigEntry : ℕ → List (List ℚ) → ℕ → ℚ

/-- The `L` by `C` matrix of samples of batch element `n` of a tensor of
shape `[N, L, C]` (the input format of `signatory.Logsignature`). -/
def pathMatrix (t : Tensor) (n : ℕ) : List (List ℚ) :=
  (List.range (t.shape.getD 1 0)).map fun i =>
    (List.range (t.shape.getD 2 0)).map fun c => t.entry [n, i, c]

/-- `self.logsignature(path)` for `path` of shape `[N, L, C]`: a tensor of
shape `[N, logsignature_channels(C, depth)]`. -/
def SignatureProvider.logsignature (P : SignatureProvider) (depth : ℕ) (t : Tensor) : Tensor :=
  ⟨[t.shape.getD 0 0, P.logsigChannels (t.shape.getD 2 0) depth],
   fun idx => P.logsigEntry depth (pathMatrix t (idx.getD 0 0)) (idx.getD 1 0)⟩

/-- State of a constructed `L2Discrepancy` (its `__init__` attributes,
lines 66-83).  The random initialisation (`kaiming_uniform_` /
`uniform_`) is modelled by an arbitrary entry function `rand` supplied to
the constructor: only the shape of the parameter is determined by the
code. -/
structure L2State where
  in_channels : ℕ
  pseudometric : Bool
  metric_type : String
  arg : Tensor

/-- `L2Discrepancy.__init__(in_channels, pseudometric, metric_type)`
(lines 66-83).  The `assert metric_type in ('general', 'diagonal')` runs
first (line 68, modelled as `ConfigurationError` per the spec taxonomy);
only then is the parameter `arg` allocated:
shape `(in_channels, in_channels)` for a general pseudometric,
`(in_channels,)` for a diagonal one, and `()` (an uninitialised scalar)
when `pseudometric` is false. -/
def L2Discrepancy.init (in_channels : ℕ) (pseudometric : Bool) (metric_type : String)
    (rand : List ℕ → ℚ) : Except DiscErr L2State :=
  if metric_type = "general" ∨ metric_type = "diagonal" then
    .ok { in_channels := in_channels, pseudometric := pseudometric, metric_type := metric_type,
          arg :=
            if pseudometric then
              if metric_type = "general" then ⟨[in_channels, in_channels], rand⟩
              else ⟨[in_channels], rand⟩
            else ⟨[], rand⟩ }
  else .error .configurationError

/-- State of a constructed `LogsignatureDiscrepancy` (lines 131-162).
`linear` is `None` exactly when `pseudometric` is false (line 160). -/
structure LogsigState where
  in_channels : ℕ
  depth : ℕ
  p : ℝ
  include_time : Bool
  pseudometric : Bool
  metric_type : String
  linear : Option Tensor

/-- `LogsignatureDiscrepancy.__init__` (lines 131-162).  The provider is
`some P` when the `signatory` import succeeded and `none` when it failed
(lines 2-5).  Order of checks mirrors the source: the `metric_type`
assert (line 133) runs before the `signatory is None` check (line 134);
then `channels = in_channels (+ 1 if include_time)` and the parameter is
allocated with `logsignature_channels(channels, depth)` entries per axis
(lines 147-158).  Random initialisation is modelled by `rand` as in
`L2Discrepancy.init`. -/
def LogsignatureDiscrepancy.init (provider : Option SignatureProvider) (in_channels depth : ℕ)
    (p : ℝ) (include_time pseudometric : Bool) (metric_type : String)
    (rand : List ℕ → ℚ) : Except DiscErr LogsigState :=
  if metric_type = "general" ∨ metric_type = "diagonal" then
    match provider with
    | none => .error .dependencyMissing
    | some P =>
      let channels := in_channels + (if include_time then 1 else 0)
      let lc := P.logsigChannels channels depth
      .ok { in_channels := in_channels, depth := depth, p := p,
            include_time := include_time, pseudometric := pseudometric,
            metric_type := metric_type,
            linear :=
              if pseudometric then
                if metric_type = "general" then some ⟨[lc, lc], rand⟩
                else some ⟨[lc], rand⟩
              else none }
  else .error .configurationError

/-- Configuration slice of `LogsignatureDiscrepancy` used by `forward`. -/
structure LogsigConfig where
  depth : ℕ
  p : ℝ
  include_time : Bool
  pseudometric : Bool
  metric_type : String

/-- Lines 192-199 of `LogsignatureDiscrepancy.forward` for one path:
`q.view(-1, q.size(-2), q.size(-1))` to collapse the batch dimensions
into the single call-batch dimension `signatory` expects, the
logsignature call, and the `view(*batch_dims, D)` restoring the batch
shape. -/
def logsigOf (P : SignatureProvider) (depth : ℕ) (batch_dims : List ℕ) (q : Tensor) : Tensor :=
  let qf := q.view [q.shape.prod / (q.penultSize * q.lastSize), q.penultSize, q.lastSize]
  let ls := P.logsignature depth qf
  ls.view (batch_dims ++ [ls.lastSize])

/-- Lines 192-215 of `LogsignatureDiscrepancy.forward`: flatten the batch
dimensions for the signature call, take logsignatures, restore the batch
shapes (`logsigOf`, applied to each path), broadcast the two logsignature
tensors to the outer-product shape `(B1..., B2..., D)` via the
`unsqueeze_` loops and `expand`, subtract, apply the pseudometric, and
reduce with the `p`-norm.  `path1_batch_dims` and `path2_batch_dims` are
the batch shapes captured at lines 178-179 (before time augmentation);
`path1`/`path2` are the possibly augmented paths. -/
noncomputable def logsigPipeline (P : SignatureProvider) (cfg : LogsigConfig)
    (linear : Option Tensor) (path1_batch_dims path2_batch_dims : List ℕ)
    (path1 path2 : Tensor) : RTensor :=
  let logsignature1 := logsigOf P cfg.depth path1_batch_dims path1
  let logsignature2 := logsigOf P cfg.depth path2_batch_dims path2
  let logsignature2 := Tensor.unsqueezeLead^[path1_batch_dims.length] logsignature2
  let logsignature1 := Tensor.unsqueezeBeforeLast^[path2_batch_dims.length] logsignature1
  let target := path1_batch_dims ++ path2_batch_dims ++ [logsignature1.lastSize]
  let logsignature1 := logsignature1.expand target
  let logsignature2 := logsignature2.expand target
  let logsignature_diff := logsignature1.sub logsignature2
  let logsignature_diff :=
    if cfg.pseudometric then
      if cfg.metric_type = "general" then logsignature_diff.matmulLast (linear.getD Tensor.null)
      else logsignature_diff.mulVecLast (linear.getD Tensor.null)
    else logsignature_diff
  logsignature_diff.normLast cfg.p

/-- `LogsignatureDiscrepancy.forward(times, path1, path2)` (lines 173-215).

`none` models a raised `RuntimeError`: the only reachable failure for
well-formed inputs is the `torch.cat` of the time channel with a path
(lines 188-189), because the loops of lines 184-187 prepend the batch
dimensions one at a time and hence build the time channel with the batch
dimensions in reversed order. -/
noncomputable def LogsignatureDiscrepancy.forward (P : SignatureProvider) (cfg : LogsigConfig)
    (linear : Option Tensor) (times path1 path2 : Tensor) : Option RTensor :=
  let path1_batch_dims := path1.shape.dropLast.dropLast
  let path2_batch_dims := path2.shape.dropLast.dropLast
  if cfg.include_time then
    let time_channel := times.unsqueezeLast
    match (broadcastTimeChannel path1_batch_dims time_channel).catLast path1,
          (broadcastTimeChannel path2_batch_dims time_channel).catLast path2 with
    | some path1', some path2' =>
        some (logsigPipeline P cfg linear path1_batch_dims path2_batch_dims path1' path2')
    | _, _ => none
  else some (logsigPipeline P cfg linear path1_batch_dims path2_batch_dims path1 path2)

/-- Whether a 1-D `times` tensor is strictly increasing. -/
def strictlyIncreasing (t : Tensor) : Bool :=
  (List.range (t.shape.getD 0 0 - 1)).all fun i => t.entry [i] < t.entry [i + 1]

/-- Dot product of two rational vectors. -/
def qdot (u w : List ℚ) : ℚ := ((u.zip w).map fun p => p.1 * p.2).sum

/-- Modelled from the spec: the pseudometric application `A v` of the
native kernel (spec §4.1, §4.2).  The kernel receives the learnt
parameter as its fourth argument and its mode is determined by the
parameter's shape, matching `L2Discrepancy.__init__` (lines 74-83):
a matrix for `general`, a vector for `diagonal`, a scalar `()` for the
identity. -/
def applyPseudometric (arg : Tensor) (v : List ℚ) : List ℚ :=
  match arg.shape with
  | [] => v
  | [d] => (List.range d).map fun r => arg.entry [r] * v.getD r 0
  | _ => (List.range (arg.shape.getD 0 0)).map fun r =>
      ((List.range (arg.shape.getD 1 0)).map fun c => arg.entry [r, c] * v.getD c 0).sum

/-- The exact integral over one segment `[a, b]` of the squared L2 norm of
the linear interpolation from vector `u` (at `a`) to vector `w` (at `b`):
`(b - a) / 3 * (u.u + u.w + w.w)`. -/
def segmentContrib (delta : ℚ) (u w : List ℚ) : ℚ :=
  delta / 3 * (qdot u u + qdot u w + qdot w w)

/-- Modelled from the spec: the summed closed-form integral
`int ||A(f(t) - g(t))||_2^2 dt` of the native kernel (spec §4.2), for
batch element `b` of `path1`.  `f - g` is piecewise linear, so over each
segment the integrand is the squared norm of a linear interpolation
between the endpoint differences, and each segment contributes
`segmentContrib`. -/
def l2sq (times path1 path2 arg : Tensor) (b : List ℕ) : ℚ :=
  let L := times.shape.getD 0 0
  let C := path2.shape.getLastD 0
  let diffAt := fun (s : ℕ) =>
    applyPseudometric arg
      ((List.range C).map fun c => path1.entry (b ++ [s, c]) - path2.entry [s, c])
  ((List.range (L - 1)).map fun s =>
    segmentContrib (times.entry [s + 1] - times.entry [s]) (diffAt s) (diffAt (s + 1))).sum

/-- Modelled from the spec: the native kernel `_impl.l2_discrepancy`
(C++ code of the repository, not among the Python sources; spec §4.2 and
§6).  It fails with `ShapeError` — before any tensor work — if `path2`
carries a batch dimension (its rank is not 2), if `times` is not strictly
increasing, or if the channel counts of `path1` and `path2` differ;
otherwise it returns the tensor of shape `path1.shape[:-2]` whose entries
are `sqrt( int ||A(f(t) - g(t))||_2^2 dt )`. -/
noncomputable def l2_discrepancy (times path1 path2 arg : Tensor) : Except DiscErr RTensor :=
  if path2.shape.length ≠ 2 then .error .shapeError
  else if ¬ strictlyIncreasing times then .error .shapeError
  else if path1.shape.getLastD 0 ≠ path2.shape.getLastD 0 then .error .shapeError
  else .ok ⟨path1.shape.dropLast.dropLast,
            fun b => Real.sqrt ((l2sq times path1 path2 arg b : ℚ) : ℝ)⟩

/-- `CppDiscrepancy.forward(self, time, path1, path2)` (lines 24-27):
calls the class's `fn` with the instance's `arg` as fourth argument. -/
noncomputable def CppDiscrepancy.forward
    (fn : Tensor → Tensor → Tensor → Tensor → Except DiscErr RTensor)
    (arg : Tensor) (time path1 path2 : Tensor) : Except DiscErr RTensor :=
  fn time path1 path2 arg

/-- `L2Discrepancy.fn = _impl.l2_discrepancy` (line 32). -/
noncomputable def L2Discrepancy.fn : Tensor → Tensor → Tensor → Tensor → Except DiscErr RTensor :=
  l2_discrepancy

/-- `L2Discrepancy.forward` as inherited from `CppDiscrepancy` with
`fn = _impl.l2_discrepancy` and the instance's `arg`. -/
noncomputable def L2State.forward (s : L2State) (time path1 path2 : Tensor) :
    Except DiscErr RTensor :=
  CppDiscrepancy.forward L2Discrepancy.fn s.arg time path1 path2

/-- A tensor object as PyTorch sees it: shape metadata plus the identifier
of the storage buffer it aliases.  Used to model which objects
`LogsignatureDiscrepancy.forward` mutates in place. -/
structure TObj where
  shape : List ℕ
  buf : ℕ

/-- An object store: the objects allocated so far (an object's id is its
index, allocation appends), a fresh-buffer counter, and a log of the ids
whose metadata was mutated in place (`unsqueeze_`). -/
structure TStore where
  objs : List TObj
  nextBuf : ℕ
  metaWrites : List ℕ

/-- Allocate a view of `parent`: a new object sharing `parent`'s buffer
(models `view` / `unsqueeze` / `expand`, which return fresh objects
aliasing the same storage). -/
def TStore.allocView (s : TStore) (parent : ℕ) (shape : List ℕ) : TStore × ℕ :=
  (⟨s.objs ++ [⟨shape, (s.objs.getD parent ⟨[], 0⟩).buf⟩], s.nextBuf, s.metaWrites⟩,
   s.objs.length)

/-- Allocate an object with a fresh buffer (models out-of-place operations:
`cat`, the logsignature call, subtraction, matrix multiply, `norm`). -/
def TStore.allocFresh (s : TStore) (shape : List ℕ) : TStore × ℕ :=
  (⟨s.objs ++ [⟨shape, s.nextBuf⟩], s.nextBuf + 1, s.metaWrites⟩, s.objs.length)

/-- Mutate the shape metadata of object `id` in place (models
`unsqueeze_`), logging the write. -/
def TStore.writeMeta (s : TStore) (id : ℕ) (shape : List ℕ) : TStore :=
  ⟨s.objs.set id ⟨shape, (s.objs.getD id ⟨[], 0⟩).buf⟩, s.nextBuf, id :: s.metaWrites⟩

/-- Shape of object `id`. -/
def TStore.shapeOf (s : TStore) (id : ℕ) : List ℕ := (s.objs.getD id ⟨[], 0⟩).shape

/-- One iteration of the time-channel loop (lines 184-187):
`tc = tc.unsqueeze(0).expand(dim, *tc.shape)` — two fresh view objects. -/
def timeChannelStep (p : TStore × ℕ) (dim : ℕ) : TStore × ℕ :=
  let (s, u) := p.1.allocView p.2 (1 :: p.1.shapeOf p.2)
  s.allocView u (dim :: p.1.shapeOf p.2)

/-- Lines 183-196 of `LogsignatureDiscrepancy.forward` as an object-store
trace: `times.unsqueeze(-1)` (a view), the two broadcast loops (views),
the two `torch.cat`s (fresh storage; skipped when `include_time` is
false, in which case lines 183-189 never run), the two flattening `view`s
of lines 192-193, and the two logsignature calls of lines 195-196 (fresh
storage).  Ends just before the `view`s of lines 198-199. -/
def tracePre (include_time : Bool) (B1 B2 : List ℕ) (iTimes iP1 iP2 : ℕ)
    (s0 : TStore) : TStore :=
  let s1 := (s0.allocView iTimes (s0.shapeOf iTimes ++ [1])).1
  let tc := (s0.allocView iTimes (s0.shapeOf iTimes ++ [1])).2
  let r1 := B1.foldl timeChannelStep (s1, tc)
  let r2 := B2.foldl timeChannelStep r1
  let s2 := r2.1
  let s3 := if include_time then
    (s2.allocFresh ((s2.shapeOf iP1).dropLast ++ [(s2.shapeOf iP1).getLastD 0 + 1])).1 else s2
  let q1 := if include_time then s2.objs.length else iP1
  let s4 := if include_time then
    (s3.allocFresh ((s3.shapeOf iP2).dropLast ++ [(s3.shapeOf iP2).getLastD 0 + 1])).1 else s3
  let q2 := if include_time then s3.objs.length else iP2
  let sh1 := s4.shapeOf q1
  let s5 := (s4.allocView q1 [sh1.prod / (sh1.dropLast.getLastD 0 * sh1.getLastD 0),
                              sh1.dropLast.getLastD 0, sh1.getLastD 0]).1
  let v1 := s4.objs.length
  let sh2 := s5.shapeOf q2
  let s6 := (s5.allocView q2 [sh2.prod / (sh2.dropLast.getLastD 0 * sh2.getLastD 0),
                              sh2.dropLast.getLastD 0, sh2.getLastD 0]).1
  let v2 := s5.objs.length
  let s7 := (s6.allocFresh (s6.shapeOf v1)).1
  let l1 := (s6.allocFresh (s6.shapeOf v1)).2
  let s8 := (s7.allocFresh (s7.shapeOf v2)).1
  let _ := (l1, v2)
  s8

/-- Lines 198-199: the two `view`s restoring the batch shapes.  The
resulting object ids are `(tracePre ...).objs.length + 1` for
`logsignature1` and `+ 2` for `logsignature2` — both fresh objects, not
the inputs. -/
def traceMid (include_time : Bool) (B1 B2 : List ℕ) (iTimes iP1 iP2 : ℕ)
    (s0 : TStore) : TStore :=
  let s8 := tracePre include_time B1 B2 iTimes iP1 iP2 s0
  let l1 := s8.objs.length - 2
  let l2 := s8.objs.length - 1
  let s9 := (s8.allocView l1 (B1 ++ [(s8.shapeOf l1).getLastD 0])).1
  let s10 := (s9.allocView l2 (B2 ++ [(s9.shapeOf l2).getLastD 0])).1
  s10

/-- Lines 201-204: the in-place `unsqueeze_` loops.  They mutate exactly
the two view objects created at lines 198-199 (ids
`(tracePre ...).objs.length` and `(tracePre ...).objs.length + 1`),
never the argument or parameter objects. -/
def traceWrites (include_time : Bool) (B1 B2 : List ℕ) (iTimes iP1 iP2 : ℕ)
    (s0 : TStore) : TStore :=
  let l1v := (tracePre include_time B1 B2 iTimes iP1 iP2 s0).objs.length
  let l2v := l1v + 1
  let s10 := traceMid include_time B1 B2 iTimes iP1 iP2 s0
  let s11 := B1.foldl (fun st _ => st.writeMeta l2v (1 :: st.shapeOf l2v)) s10
  B2.foldl (fun st _ =>
    st.writeMeta l1v ((st.shapeOf l1v).dropLast ++ [1, (st.shapeOf l1v).getLastD 0])) s11

/-- The full allocation/mutation trace of `LogsignatureDiscrepancy.forward`
(lines 173-215) on inputs with ids `iTimes`, `iP1`, `iP2` and batch
shapes `B1`, `B2`: lines 183-204 via `tracePre`/`traceMid`/`traceWrites`,
then the `expand` views of lines 205-206, the fresh subtraction result of
line 208, the fresh pseudometric result of lines 210-214, and the fresh
`norm` result of line 215.  All value-level computation is carried by
`LogsignatureDiscrepancy.forward`; this trace records only object
identity, aliasing and in-place mutation. -/
def logsigForwardTrace (include_time pseudometric : Bool) (B1 B2 : List ℕ)
    (iTimes iP1 iP2 : ℕ) (s0 : TStore) : TStore :=
  let l1v := (tracePre include_time B1 B2 iTimes iP1 iP2 s0).objs.length
  let s12 := traceWrites include_time B1 B2 iTimes iP1 iP2 s0
  let s13 := (s12.allocView l1v (B1 ++ B2 ++ [(s12.shapeOf l1v).getLastD 0])).1
  let s14 := (s13.allocView (l1v + 1) (B1 ++ B2 ++ [(s13.shapeOf l1v).getLastD 0])).1
  let s15 := (s14.allocFresh (s14.shapeOf (s14.objs.length - 2))).1
  let s16 := if pseudometric then
    (s15.allocFresh (s15.shapeOf (s15.objs.length - 1))).1 else s15
  (s16.allocFresh ((s16.shapeOf (s16.objs.length - 1)).dropLast)).1

/-- Entry of an `Except`-wrapped tensor result (default 0 on error). -/
noncomputable def exceptEntry (e : Except DiscErr RTensor) (idx : List ℕ) : ℝ :=
  (e.toOption.getD RTensor.null).entry idx

/-- A concrete provider with `logsignature_channels c depth = c` and zero
logsignatures; used only to evaluate shape behaviour at concrete inputs. -/
def trivialProvider : SignatureProvider :=
  ⟨fun c _ => c, fun _ _ _ => 0⟩

/-- A concrete provider computing the depth-1 logsignature, which is the
increment of the path: coordinate `j` is `path[L-1][j] - path[0][j]`.
This satisfies the spec's SignatureProvider contract (§6). -/
def incProvider : SignatureProvider :=
  ⟨fun c _ => c, fun _ m j => (m.getLastD []).getD j 0 - (m.headD []).getD j 0⟩

/-- Configuration `depth=1, p=2, include_time=False, pseudometric=False`. -/
def cfgPlain : LogsigConfig :=
  { depth := 1, p := 2, include_time := false, pseudometric := false, metric_type := "general" }

/-- Configuration `depth=1, p=2, include_time=True, pseudometric=False`. -/
def cfgTime : LogsigConfig :=
  { depth := 1, p := 2, include_time := true, pseudometric := false, metric_type := "general" }

/-- A batch of two single-channel length-2 paths: element 0 is the
constant path `[[0],[0]]`, element 1 is `[[0],[1]]`. -/
def twoPaths : Tensor :=
  ⟨[2, 2, 1], fun idx => if idx = [1, 1, 0] then 1 else 0⟩

/-- `forward(times, path, path)` with the batched `twoPaths` passed as
both arguments (identity pseudometric, `include_time=False`, `p=2`). -/
noncomputable def selfCallBatched : Option RTensor :=
  LogsignatureDiscrepancy.forward incProvider cfgPlain none (zeros [2]) twoPaths twoPaths

/-- `forward` at a path1 with batch shape `(2, 3)` and `include_time=True`
(the input on which the time-channel broadcast is built reversed). -/
noncomputable def multibatchCall : Option RTensor :=
  LogsignatureDiscrepancy.forward trivialProvider cfgTime none
    (zeros [2]) (zeros [2, 3, 2, 1]) (zeros [2, 1])

/-- The time channel the source builds for a path of batch shape `(2, 3)`
and `times` of length 5 (lines 183-185). -/
def timeChannel23 : Tensor :=
  broadcastTimeChannel [2, 3] ((zeros [5]).unsqueezeLast)

/-- `forward` at a path1 of batch shape `(2, 3)` over a length-5 grid with
`include_time=True`. -/
noncomputable def multibatchCall5 : Option RTensor :=
  LogsignatureDiscrepancy.forward trivialProvider cfgTime none
    (zeros [5]) (zeros [2, 3, 5, 1]) (zeros [5, 1])

/-- `times = [0, 1, 2]` (§8's concrete scenario). -/
def timesC3 : Tensor := ⟨[3], fun idx => (idx.headD 0 : ℚ)⟩

/-- `path1 = [[0], [1], [2]]`: shape `(3, 1)`, no batch dimensions. -/
def pathRamp : Tensor := ⟨[3, 1], fun idx => (idx.headD 0 : ℚ)⟩

/-- `path2 = [[0], [0], [0]]`: shape `(3, 1)`. -/
def pathZero : Tensor := zeros [3, 1]

/-- The constantly-zero initialiser, standing in for the random parameter
initialisation in concrete instances. -/
def zfun : List ℕ → ℚ := fun _ => 0

/-- The `L2Discrepancy` state produced by
`L2Discrepancy.init 3 true "general" zfun`. -/
def l2StateG : L2State := ⟨3, true, "general", ⟨[3, 3], zfun⟩⟩

/-- `s1` preserves `s0`: every object of `s0` is intact (same shape, same
buffer), and every metadata write logged since `s0` targeted an object
allocated after `s0`.  This is the frame property of
`LogsignatureDiscrepancy.forward`: the trace never mutates pre-existing
objects (the arguments and the parameter), and every buffer it creates is
fresh. -/
def TStore.Preserved (s0 s1 : TStore) : Prop :=
  s1.objs.take s0.objs.length = s0.objs ∧
  s0.objs.length ≤ s1.objs.length ∧
  ∀ id ∈ s1.metaWrites, id ∈ s0.metaWrites ∨ s0.objs.length ≤ id

/-- C5: constructing either discrepancy with a `metric_type` that is not
one of the recognized values fails at construction time with
`ConfigurationError` (for any `pseudometric` flag, any channel count, any
depth, any provider), before any parameter is allocated. -/
theorem init_invalid_metric_type_fails
    (mt : String) (hg : mt ≠ "general") (hd : mt ≠ "diagonal")
    (c d : ℕ) (p : ℝ) (it pm : Bool) (prov : Option SignatureProvider) (r : List ℕ → ℚ) :
    L2Discrepancy.init c pm mt r = .error .configurationError ∧
    LogsignatureDiscrepancy.init prov c d p it pm mt r = .error .configurationError := by
  constructor <;>
    simp [L2Discrepancy.init, LogsignatureDiscrepancy.init, hg, hd]

/-- Witness for C5 at `metric_type = "bogus"`. -/
theorem init_invalid_metric_type_fails_witness :
    L2Discrepancy.init 3 true "bogus" zfun = .error .configurationError ∧
    LogsignatureDiscrepancy.init (some trivialProvider) 3 2 2 true true "bogus" zfun
      = .error .configurationError :=
  init_invalid_metric_type_fails "bogus" (by decide) (by decide) 3 2 2 true true
    (some trivialProvider) zfun

/-- C6: if the SignatureProvider capability (`signatory`) is unavailable,
constructing a `LogsignatureDiscrepancy` fails at construction time with
`DependencyMissingError`; if it is available, construction never fails
for that reason. -/
theorem logsig_init_dependency_guard
    (mt : String) (hv : mt = "general" ∨ mt = "diagonal")
    (c d : ℕ) (p : ℝ) (it pm : Bool) (r : List ℕ → ℚ) (P : SignatureProvider) :
    LogsignatureDiscrepancy.init none c d p it pm mt r = .error .dependencyMissing ∧
    LogsignatureDiscrepancy.init (some P) c d p it pm mt r ≠ .error .dependencyMissing := by
  constructor
  · simp [LogsignatureDiscrepancy.init, if_pos hv]
  · simp [LogsignatureDiscrepancy.init, if_pos hv]

/-- Witness for C6 at `metric_type = "general"`. -/
theorem logsig_init_dependency_guard_witness :
    LogsignatureDiscrepancy.init none 3 2 2 true true "general" zfun
      = .error .dependencyMissing ∧
    LogsignatureDiscrepancy.init (some trivialProvider) 3 2 2 true true "general" zfun
      ≠ .error .dependencyMissing :=
  logsig_init_dependency_guard "general" (Or.inl rfl) 3 2 2 true true zfun trivialProvider

/-- C8: in both constructors the `metric_type` value is validated
unconditionally, before the `pseudometric` flag is consulted: with
`pseudometric=False` (where the value would never be used) an
unrecognized `metric_type` still raises `ConfigurationError`. -/
theorem metric_type_checked_before_pseudometric
    (mt : String) (hg : mt ≠ "general") (hd : mt ≠ "diagonal")
    (c d : ℕ) (p : ℝ) (it : Bool) (prov : Option SignatureProvider) (r : List ℕ → ℚ) :
    L2Discrepancy.init c false mt r = .error .configurationError ∧
    LogsignatureDiscrepancy.init prov c d p it false mt r = .error .configurationError := by
  constructor <;>
    simp [L2Discrepancy.init, LogsignatureDiscrepancy.init, hg, hd]

/-- Witness for C8 at `metric_type = "bogus"`, `pseudometric = False`. -/
theorem metric_type_checked_before_pseudometric_witness :
    L2Discrepancy.init 3 false "bogus" zfun = .error .configurationError ∧
    LogsignatureDiscrepancy.init none 3 2 2 true false "bogus" zfun
      = .error .configurationError :=
  metric_type_checked_before_pseudometric "bogus" (by decide) (by decide) 3 2 2 true
    none zfun

/-- C9: after a successful construction, the `arg` parameter of an
`L2Discrepancy` has the shape fixed by its configuration —
`(in_channels, in_channels)` for a general pseudometric, `(in_channels,)`
for a diagonal one, `()` (scalar) when `pseudometric` is false — and
`forward` passes exactly this `arg` as the fourth argument of the kernel
`_impl.l2_discrepancy`.  The state is immutable in the embedding, so the
parameter is never resized. -/
theorem l2_arg_shape_invariant
    (c : ℕ) (pm : Bool) (mt : String) (r : List ℕ → ℚ) (s : L2State)
    (t p1 p2 : Tensor)
    (h : L2Discrepancy.init c pm mt r = .ok s) :
    s.arg.shape = (if pm then if mt = "general" then [c, c] else [c] else []) ∧
    s.forward t p1 p2 = l2_discrepancy t p1 p2 s.arg := by
  by_cases hv : mt = "general" ∨ mt = "diagonal"
  · simp only [L2Discrepancy.init, if_pos hv, Except.ok.injEq] at h
    subst h
    refine ⟨?_, rfl⟩
    split_ifs <;> rfl
  · simp [L2Discrepancy.init, if_neg hv] at h

/-- Witness for C9: `in_channels=3`, general learnt pseudometric. -/
theorem l2_arg_shape_invariant_witness :
    l2StateG.arg.shape = (if true then if "general" = "general" then [3, 3] else [3] else []) ∧
    l2StateG.forward Tensor.null Tensor.null Tensor.null
      = l2_discrepancy Tensor.null Tensor.null Tensor.null l2StateG.arg :=
  l2_arg_shape_invariant 3 true "general" zfun l2StateG Tensor.null Tensor.null Tensor.null rfl

/-- C1 (failing input): with `include_time=True` and a `path1` of batch
shape `(2, 3)`, `forward` does not return the outer-broadcast tensor of
shape `(2, 3)`: the time channel of lines 183-185 is built with batch
dimensions `(3, 2)` (reversed), so the `torch.cat` of line 188 raises. -/
theorem logsig_forward_multibatch_raises : multibatchCall = none := rfl

/-- C7 (failing input): with `include_time=True` the time channel built
for a path of batch shape `(2, 3)` over a length-5 grid has shape
`(3, 2, 5, 1)` — the REVERSE of the path's batch shape, not the batch
shape `(2, 3, 5, 1)` itself — so the augmentation of lines 188-189
raises instead of producing `C+1` channels. -/
theorem logsig_time_channel_reversed :
    timeChannel23.shape = [3, 2, 5, 1] ∧
    timeChannel23.shape ≠ [2, 3, 5, 1] ∧
    multibatchCall5 = none :=
  ⟨rfl, by decide, rfl⟩

theorem take_set_le {α : Type} (l : List α) (i n : ℕ) (x : α) (h : n ≤ i) :
    (l.set i x).take n = l.take n := by
  rcases Nat.lt_or_ge n i with h' | h'
  · exact List.take_set_of_lt x l h'
  · have : n = i := le_antisymm h h'
    subst this
    rcases Nat.lt_or_ge n l.length with hl | hl
    · refine List.ext_getElem (by simp) ?_
      intro m hm1 hm2
      simp only [List.length_take] at hm1
      have hmn : m < n := lt_of_lt_of_le hm1 (min_le_left _ _)
      rw [List.getElem_take, List.getElem_take, List.getElem_set_ne (by omega)]
    · rw [List.set_eq_of_length_le (by omega)]

theorem shape_unsqueezeLead_iter (m : ℕ) (t : Tensor) :
    (Tensor.unsqueezeLead^[m] t).shape = List.replicate m 1 ++ t.shape := by
  induction m with
  | zero => rfl
  | succ m ih =>
    rw [Function.iterate_succ_apply']
    show 1 :: (Tensor.unsqueezeLead^[m] t).shape = _
    rw [ih, List.replicate_succ]
    rfl

theorem entry_unsqueezeLead_iter (m : ℕ) (t : Tensor) (rest : List ℕ) :
    (Tensor.unsqueezeLead^[m] t).entry (List.replicate m 0 ++ rest) = t.entry rest := by
  induction m with
  | zero => rfl
  | succ m ih =>
    rw [Function.iterate_succ_apply', List.replicate_succ]
    show (Tensor.unsqueezeLead^[m] t).entry (List.replicate m 0 ++ rest) = _
    exact ih

theorem entry_unsqueezeBeforeLast (t : Tensor) (a : List ℕ) (b k : ℕ) :
    t.unsqueezeBeforeLast.entry ((a ++ [b]) ++ [k]) = t.entry (a ++ [k]) := by
  show t.entry ((((a ++ [b]) ++ [k]).dropLast.dropLast) ++ [((a ++ [b]) ++ [k]).getLastD 0]) = _
  rw [List.dropLast_concat, List.dropLast_concat]
  simp

theorem shape_unsqueezeBeforeLast_iter (m : ℕ) (B : List ℕ) (D : ℕ) (t : Tensor)
    (ht : t.shape = B ++ [D]) :
    (Tensor.unsqueezeBeforeLast^[m] t).shape = B ++ List.replicate m 1 ++ [D] := by
  induction m with
  | zero => simpa using ht
  | succ m ih =>
    rw [Function.iterate_succ_apply']
    show (Tensor.unsqueezeBeforeLast^[m] t).shape.dropLast ++
          [1, (Tensor.unsqueezeBeforeLast^[m] t).shape.getLastD 0] = _
    rw [ih, List.dropLast_concat]
    simp [List.replicate_succ', List.append_assoc]

theorem entry_unsqueezeBeforeLast_iter (m : ℕ) (t : Tensor) (i : List ℕ) (k : ℕ) :
    (Tensor.unsqueezeBeforeLast^[m] t).entry (i ++ List.replicate m 0 ++ [k])
      = t.entry (i ++ [k]) := by
  induction m with
  | zero => simp
  | succ m ih =>
    rw [Function.iterate_succ_apply']
    have h1 : i ++ List.replicate (m + 1) 0 ++ [k]
        = ((i ++ List.replicate m 0) ++ [0]) ++ [k] := by
      simp [List.replicate_succ', List.append_assoc]
    rw [h1, entry_unsqueezeBeforeLast]
    exact ih

theorem broadcastIdx_lt : ∀ {i B : List ℕ}, List.Forall₂ (· < ·) i B →
    (B.zip i).map (fun p => if p.1 = 1 then 0 else p.2) = i := by
  intro i B h
  induction h with
  | nil => rfl
  | @cons a b l1 l2 h1 h2 ih =>
    simp only [List.zip_cons_cons, List.map_cons, ih, List.cons.injEq, and_true]
    split
    · omega
    · rfl

theorem broadcastIdx_ones : ∀ (m : ℕ) (j : List ℕ), j.length = m →
    ((List.replicate m 1).zip j).map (fun p => if p.1 = 1 then 0 else p.2)
      = List.replicate m 0 := by
  intro m
  induction m with
  | zero => intro j hj; rw [List.eq_nil_of_length_eq_zero hj]; rfl
  | succ m ih =>
    intro j hj
    match j with
    | x :: j' =>
      simp only [List.replicate_succ, List.zip_cons_cons, List.map_cons, if_true]
      rw [ih j' (by simpa using hj)]

theorem broadcastIdx_split (B1 : List ℕ) (i j : List ℕ) (m D k : ℕ)
    (hi : List.Forall₂ (· < ·) i B1) (hj : j.length = m) (hk : k < D) :
    broadcastIdx (B1 ++ List.replicate m 1 ++ [D]) (i ++ j ++ [k])
      = i ++ List.replicate m 0 ++ [k] := by
  unfold broadcastIdx
  rw [List.zip_append (by simp [hi.length_eq, hj]),
      List.zip_append (by simp [hi.length_eq]),
      List.map_append, List.map_append, broadcastIdx_lt hi, broadcastIdx_ones m j hj]
  simp only [List.zip_cons_cons, List.zip_nil_right, List.map_cons, List.map_nil]
  congr 2
  split
  · omega
  · rfl

theorem broadcastIdx_split' (B2 : List ℕ) (i j : List ℕ) (m D k : ℕ)
    (hi : i.length = m) (hj : List.Forall₂ (· < ·) j B2) (hk : k < D) :
    broadcastIdx (List.replicate m 1 ++ B2 ++ [D]) (i ++ j ++ [k])
      = List.replicate m 0 ++ j ++ [k] := by
  unfold broadcastIdx
  rw [List.zip_append (by simp [hj.length_eq, hi]),
      List.zip_append (by simp [hi]),
      List.map_append, List.map_append, broadcastIdx_lt hj, broadcastIdx_ones m i hi]
  simp only [List.zip_cons_cons, List.zip_nil_right, List.map_cons, List.map_nil]
  congr 2
  split
  · omega
  · rfl

theorem torchNorm_eq_zero (p : ℝ) (hp : 1 ≤ p) (v : List ℚ) (hv : ∀ x ∈ v, x = 0) :
    torchNorm p v = 0 := by
  have hp0 : p ≠ 0 := by positivity
  unfold torchNorm
  have hsum : (v.map fun x : ℚ => |(x : ℝ)| ^ p).sum = 0 := by
    apply List.sum_eq_zero
    intro y hy
    simp only [List.mem_map] at hy
    obtain ⟨x, hx, hxy⟩ := hy
    rw [← hxy, hv x hx]
    simp [Real.zero_rpow hp0]
  rw [hsum, Real.zero_rpow (one_div_ne_zero hp0)]

theorem map_range_congr (n m : ℕ) (f g : ℕ → ℚ) (hnm : n = m) (h : ∀ k < m, f k = g k) :
    (List.range n).map f = (List.range m).map g := by
  subst hnm
  exact List.map_congr_left fun k hk => h k (List.mem_range.mp hk)

theorem logsigOf_shape (P : SignatureProvider) (d : ℕ) (B : List ℕ) (q : Tensor) :
    (logsigOf P d B q).shape = B ++ [(logsigOf P d B q).lastSize] := by
  simp [logsigOf, Tensor.view, Tensor.lastSize]

/-- Entry of the pipeline result at a pair of valid batch multi-indices
`i` (into `B1`) and `j` (into `B2`), identity pseudometric: the `p`-norm
of the coordinatewise difference between the logsignature of batch
element `i` of `path1` and the logsignature of batch element `j` of
`path2` — every `path1` element is compared against every `path2`
element. -/
theorem logsigPipeline_pairwise (P : SignatureProvider) (cfg : LogsigConfig)
    (linear : Option Tensor) (B1 B2 : List ℕ) (q1 q2 : Tensor) (i j : List ℕ)
    (hi : List.Forall₂ (· < ·) i B1) (hj : List.Forall₂ (· < ·) j B2)
    (hpm : cfg.pseudometric = false)
    (hD : (logsigOf P cfg.depth B2 q2).lastSize = (logsigOf P cfg.depth B1 q1).lastSize) :
    (logsigPipeline P cfg linear B1 B2 q1 q2).entry (i ++ j) =
      torchNorm cfg.p ((List.range (logsigOf P cfg.depth B1 q1).lastSize).map fun k =>
        (logsigOf P cfg.depth B1 q1).entry (i ++ [k])
          - (logsigOf P cfg.depth B2 q2).entry (j ++ [k])) := by
  have hsh1 : (logsigOf P cfg.depth B1 q1).shape
      = B1 ++ [(logsigOf P cfg.depth B1 q1).lastSize] := logsigOf_shape P cfg.depth B1 q1
  have hsh2 : (logsigOf P cfg.depth B2 q2).shape
      = B2 ++ [(logsigOf P cfg.depth B2 q2).lastSize] := logsigOf_shape P cfg.depth B2 q2
  simp only [logsigPipeline, hpm, Bool.false_eq_true, if_false, Tensor.normLast, RTensor.mk.injEq]
  apply congrArg (torchNorm cfg.p)
  apply map_range_congr
  · simp only [Tensor.sub, Tensor.expand, Tensor.lastSize]
    rw [shape_unsqueezeBeforeLast_iter B2.length B1 _ _ hsh1]
    simp [Tensor.lastSize, List.getLastD_eq_getLast?]
  · intro k hk
    simp only [Tensor.sub, Tensor.expand]
    rw [shape_unsqueezeBeforeLast_iter B2.length B1 _ _ hsh1,
        shape_unsqueezeLead_iter B1.length, hsh2,
        ← List.append_assoc,
        broadcastIdx_split B1 i j B2.length _ k hi hj.length_eq hk,
        broadcastIdx_split' B2 i j B1.length _ k hi.length_eq hj
          (lt_of_lt_of_eq hk hD.symm),
        entry_unsqueezeBeforeLast_iter,
        List.append_assoc (List.replicate B1.length 0) j [k],
        entry_unsqueezeLead_iter]

/-- C2 (amended): for every provider, configuration with identity
pseudometric (`pseudometric=False`) and `p >= 1`, any `include_time`,
and the same `path` passed as both arguments, whenever
`forward(times, path, path)` returns a result, its entry at every MATCHED
pair `(i, i)` of valid batch multi-indices is zero — in particular, for a
path with no batch dimensions the scalar result is zero.  (The full
result tensor is not zero for batched paths: off-diagonal entries compare
distinct batch elements; see the counterexample.) -/
theorem logsig_self_matched_zero
    (P : SignatureProvider) (cfg : LogsigConfig) (linear : Option Tensor)
    (times path : Tensor) (i : List ℕ) (out : RTensor)
    (hpm : cfg.pseudometric = false) (hp : 1 ≤ cfg.p)
    (hi : List.Forall₂ (· < ·) i path.shape.dropLast.dropLast)
    (hout : LogsignatureDiscrepancy.forward P cfg linear times path path = some out) :
    out.entry (i ++ i) = 0 := by
  have key : ∀ q : Tensor,
      (logsigPipeline P cfg linear path.shape.dropLast.dropLast
        path.shape.dropLast.dropLast q q).entry (i ++ i) = 0 := by
    intro q
    rw [logsigPipeline_pairwise P cfg linear _ _ q q i i hi hi hpm rfl]
    apply torchNorm_eq_zero cfg.p hp
    intro x hx
    simp only [List.mem_map] at hx
    obtain ⟨k, hk, hxk⟩ := hx
    rw [← hxk]
    exact sub_self _
  simp only [LogsignatureDiscrepancy.forward] at hout
  by_cases hit : cfg.include_time = true
  · simp only [hit, if_true] at hout
    rcases hcat : Tensor.catLast
        (broadcastTimeChannel path.shape.dropLast.dropLast times.unsqueezeLast) path
      with _ | q
    · rw [hcat] at hout
      simp at hout
    · rw [hcat] at hout
      simp only [Option.some.injEq] at hout
      subst hout
      exact key q
  · simp only [Bool.not_eq_true] at hit
    simp only [hit, Bool.false_eq_true, if_false, Option.some.injEq] at hout
    subst hout
    exact key path

/-- Witness for C2 (amended) at an unbatched path: the scalar result of
`forward(times, path, path)` is zero. -/
theorem logsig_self_matched_zero_witness :
    (logsigPipeline incProvider cfgPlain none [] [] (zeros [2, 1]) (zeros [2, 1])).entry
      ([] ++ []) = 0 :=
  logsig_self_matched_zero incProvider cfgPlain none (zeros [2]) (zeros [2, 1]) []
    (logsigPipeline incProvider cfgPlain none [] [] (zeros [2, 1]) (zeros [2, 1]))
    rfl one_le_two List.Forall₂.nil rfl

/-- C2 counterexample: `forward(times, path, path)` with a BATCHED path
(batch shape `(2,)`, identity pseudometric, `p=2`, `include_time=False`,
depth-1 logsignatures) succeeds but is NOT the zero tensor: the result
has shape `(2, 2)` and its off-diagonal entry `(0, 1)` equals 1, because
the outer broadcast compares batch element 0 against batch element 1. -/
theorem logsig_self_batched_nonzero :
    selfCallBatched.isSome = true ∧
    (selfCallBatched.getD RTensor.null).entry [0, 1] = 1 := by
  refine ⟨rfl, ?_⟩
  have h1 : selfCallBatched.getD RTensor.null
      = logsigPipeline incProvider cfgPlain none [2] [2] twoPaths twoPaths := rfl
  have h2 := logsigPipeline_pairwise incProvider cfgPlain none [2] [2] twoPaths twoPaths
    [0] [1] (List.Forall₂.cons (by omega) List.Forall₂.nil)
    (List.Forall₂.cons (by omega) List.Forall₂.nil) rfl rfl
  have hD1 : (logsigOf incProvider cfgPlain.depth [2] twoPaths).lastSize = 1 := rfl
  rw [hD1] at h2
  have hv0 : (logsigOf incProvider cfgPlain.depth [2] twoPaths).entry ([0] ++ [0])
      = 0 - 0 := rfl
  have hv1 : (logsigOf incProvider cfgPlain.depth [2] twoPaths).entry ([1] ++ [0])
      = 1 - 0 := rfl
  rw [show (([0] : List ℕ) ++ [1]) = [0, 1] from rfl] at h2
  rw [h1, h2, show List.range 1 = [0] from rfl, List.map_cons, List.map_nil, hv0, hv1,
      show ((0 : ℚ) - 0) - (1 - 0) = -1 by norm_num]
  simp [torchNorm, cfgPlain, Real.one_rpow]

/-- C4: the direct-L2 kernel fails with `ShapeError` — and with nothing
else — exactly when `path2` carries a batch dimension (rank not 2), or
`times` is not strictly increasing, or the channel counts differ; under
the three preconditions it returns a result (no error is raised).  In the
embedding the error is returned before the result tensor is formed,
mirroring "fails before any tensor work is performed". -/
theorem l2_discrepancy_shape_guard (t p1 p2 arg : Tensor) :
    (l2_discrepancy t p1 p2 arg = .error .shapeError ↔
      ¬ (p2.shape.length = 2 ∧ strictlyIncreasing t = true ∧
         p1.shape.getLastD 0 = p2.shape.getLastD 0)) ∧
    ((∃ r, l2_discrepancy t p1 p2 arg = .ok r) ↔
      (p2.shape.length = 2 ∧ strictlyIncreasing t = true ∧
       p1.shape.getLastD 0 = p2.shape.getLastD 0)) := by
  unfold l2_discrepancy
  split_ifs with h1 h2 h3 <;> simp_all

theorem cont_channel_sum (a b : ℝ) (l : List (ℚ × ℚ)) :
    Continuous fun t : ℝ => (l.map fun pr : ℚ × ℚ =>
      ((pr.1 : ℝ) + (t - a) / (b - a) * ((pr.2 : ℝ) - (pr.1 : ℝ))) ^ 2).sum := by
  induction l with
  | nil => simpa using continuous_const
  | cons hd tl ih =>
    simp only [List.map_cons, List.sum_cons]
    exact Continuous.add (by fun_prop) ih

theorem channel_sq_integral (a b u w : ℝ) (hab : a < b) :
    ∫ t in a..b, (u + (t - a) / (b - a) * (w - u)) ^ 2
      = (b - a) / 3 * (u ^ 2 + u * w + w ^ 2) := by
  have hba : b - a ≠ 0 := sub_ne_zero.mpr hab.ne'
  have heq : Set.EqOn (fun t : ℝ => (u + (t - a) / (b - a) * (w - u)) ^ 2)
      (fun t : ℝ => (u + (t - a) * ((w - u) / (b - a))) ^ 2) (Set.uIcc a b) := by
    intro t _
    ring
  rw [intervalIntegral.integral_congr heq]
  have hsub : (∫ t in a..b, (u + (t - a) * ((w - u) / (b - a))) ^ 2)
      = ∫ t in a - a..b - a, (u + t * ((w - u) / (b - a))) ^ 2 :=
    intervalIntegral.integral_comp_sub_right
      (fun s : ℝ => (u + s * ((w - u) / (b - a))) ^ 2) a
  rw [hsub, sub_self]
  have hexp : Set.EqOn (fun t : ℝ => (u + t * ((w - u) / (b - a))) ^ 2)
      (fun t : ℝ => u ^ 2 + 2 * u * ((w - u) / (b - a)) * t
        + ((w - u) / (b - a)) ^ 2 * t ^ 2) (Set.uIcc 0 (b - a)) := by
    intro t _
    ring
  rw [intervalIntegral.integral_congr hexp]
  rw [intervalIntegral.integral_add (by apply Continuous.intervalIntegrable; fun_prop)
        (by apply Continuous.intervalIntegrable; fun_prop),
      intervalIntegral.integral_add (by apply Continuous.intervalIntegrable; fun_prop)
        (by apply Continuous.intervalIntegrable; fun_prop),
      intervalIntegral.integral_const, intervalIntegral.integral_const_mul,
      intervalIntegral.integral_const_mul, integral_id, integral_pow]
  field_simp
  ring

/-- The per-segment closed form `segmentContrib` is the exact integral of
the squared L2 norm of the channelwise linear interpolation between the
endpoint difference vectors `u` (at `a`) and `w` (at `b`). -/
theorem segment_integral_eq (a b : ℚ) (hab : a < b) :
    ∀ (u w : List ℚ), u.length = w.length →
    ((segmentContrib (b - a) u w : ℚ) : ℝ)
      = ∫ t in (a : ℝ)..(b : ℝ),
          ((u.zip w).map fun pr : ℚ × ℚ =>
            ((pr.1 : ℝ) + (t - (a : ℝ)) / ((b : ℝ) - (a : ℝ))
              * ((pr.2 : ℝ) - (pr.1 : ℝ))) ^ 2).sum := by
  intro u
  induction u with
  | nil =>
    intro w hlen
    rw [List.eq_nil_of_length_eq_zero hlen.symm]
    simp [segmentContrib, qdot]
  | cons x u ih =>
    intro w hlen
    match w with
    | y :: w' =>
      have hlen' : u.length = w'.length := by simpa using hlen
      have habR : (a : ℝ) < (b : ℝ) := by exact_mod_cast hab
      simp only [List.zip_cons_cons, List.map_cons, List.sum_cons]
      rw [intervalIntegral.integral_add (by apply Continuous.intervalIntegrable; fun_prop)
            (Continuous.intervalIntegrable (cont_channel_sum (a : ℝ) (b : ℝ) (u.zip w')) _ _),
          channel_sq_integral (a : ℝ) (b : ℝ) x y habR, ← ih w' hlen']
      simp only [segmentContrib, qdot, List.zip_cons_cons, List.map_cons, List.sum_cons]
      push_cast
      ring

/-- C3: on `times = [0,1,2]`, `path1 = [[0],[1],[2]]`, `path2 = [[0],[0],[0]]`
with the identity pseudometric, the direct L2 discrepancy is
`sqrt(8/3)` (the integral of `t^2` over `[0,2]` under the square root);
and in general each per-segment contribution of the kernel is the exact
closed-form integral of the squared L2 norm of the piecewise-linear
difference over that segment. -/
theorem l2_discrepancy_spec_value :
    exceptEntry (l2_discrepancy timesC3 pathRamp pathZero Tensor.null) [] = Real.sqrt (8 / 3) ∧
    ∀ (a b : ℚ) (u w : List ℚ), a < b → u.length = w.length →
      ((segmentContrib (b - a) u w : ℚ) : ℝ)
        = ∫ t in (a : ℝ)..(b : ℝ),
            ((u.zip w).map fun pr : ℚ × ℚ =>
              ((pr.1 : ℝ) + (t - (a : ℝ)) / ((b : ℝ) - (a : ℝ))
                * ((pr.2 : ℝ) - (pr.1 : ℝ))) ^ 2).sum := by
  constructor
  · have hsi : strictlyIncreasing timesC3 = true := by decide
    have hok : l2_discrepancy timesC3 pathRamp pathZero Tensor.null
        = .ok ⟨pathRamp.shape.dropLast.dropLast,
               fun b => Real.sqrt ((l2sq timesC3 pathRamp pathZero Tensor.null b : ℚ) : ℝ)⟩ := by
      unfold l2_discrepancy
      rw [if_neg (by decide), if_neg (by rw [hsi]; simp), if_neg (by decide)]
    have hl2 : l2sq timesC3 pathRamp pathZero Tensor.null [] = 8 / 3 := by
      norm_num [l2sq, segmentContrib, qdot, applyPseudometric, Tensor.null, timesC3,
        pathRamp, pathZero, zeros, show List.range 2 = [0, 1] from rfl,
        show List.range 1 = [0] from rfl]
    rw [hok]
    show Real.sqrt ((l2sq timesC3 pathRamp pathZero Tensor.null [] : ℚ) : ℝ) = _
    rw [hl2]
    norm_num
  · intro a b u w hab hlen
    exact segment_integral_eq a b hab u w hlen

/-- Witness for C3's per-segment integral identity at the second segment
of the concrete scenario (`a=1`, `b=2`, difference endpoints 1 and 2). -/
theorem l2_discrepancy_spec_value_witness :
    ((segmentContrib ((2 : ℚ) - 1) [1] [2] : ℚ) : ℝ)
      = ∫ t in ((1 : ℚ) : ℝ)..((2 : ℚ) : ℝ),
          ((([(1 : ℚ)]).zip [(2 : ℚ)]).map fun pr : ℚ × ℚ =>
            ((pr.1 : ℝ) + (t - ((1 : ℚ) : ℝ)) / (((2 : ℚ) : ℝ) - ((1 : ℚ) : ℝ))
              * ((pr.2 : ℝ) - (pr.1 : ℝ))) ^ 2).sum :=
  l2_discrepancy_spec_value.2 1 2 [1] [2] (by decide) rfl

theorem preserved_refl (s : TStore) : s.Preserved s :=
  ⟨List.take_length _, le_refl _, fun _ h => Or.inl h⟩

theorem preserved_trans {s0 s1 s2 : TStore} (h1 : s0.Preserved s1) (h2 : s1.Preserved s2) :
    s0.Preserved s2 := by
  obtain ⟨t1, l1, w1⟩ := h1
  obtain ⟨t2, l2, w2⟩ := h2
  refine ⟨?_, le_trans l1 l2, ?_⟩
  · have h : s2.objs.take s0.objs.length = (s2.objs.take s1.objs.length).take s0.objs.length := by
      rw [List.take_take, min_eq_left l1]
    rw [h, t2, t1]
  · intro id hid
    rcases w2 id hid with h | h
    · exact w1 id h
    · exact Or.inr (le_trans l1 h)

theorem preserved_allocView {s0 : TStore} (s : TStore) (h : s0.Preserved s)
    (p : ℕ) (sh : List ℕ) : s0.Preserved (s.allocView p sh).1 := by
  obtain ⟨t, l, w⟩ := h
  refine ⟨?_, ?_, w⟩
  · show (s.objs ++ [_]).take s0.objs.length = s0.objs
    rw [List.take_append_of_le_length l, t]
  · show s0.objs.length ≤ (s.objs ++ [_]).length
    simp only [List.length_append, List.length_singleton]
    omega

theorem preserved_allocFresh {s0 : TStore} (s : TStore) (h : s0.Preserved s)
    (sh : List ℕ) : s0.Preserved (s.allocFresh sh).1 := by
  obtain ⟨t, l, w⟩ := h
  refine ⟨?_, ?_, w⟩
  · show (s.objs ++ [_]).take s0.objs.length = s0.objs
    rw [List.take_append_of_le_length l, t]
  · show s0.objs.length ≤ (s.objs ++ [_]).length
    simp only [List.length_append, List.length_singleton]
    omega

theorem preserved_iteFresh {s0 : TStore} (c : Bool) (s : TStore) (h : s0.Preserved s)
    (sh : List ℕ) :
    s0.Preserved (if c then (s.allocFresh sh).1 else s) := by
  cases c
  · simpa using h
  · simpa using preserved_allocFresh s h sh

theorem preserved_writeMeta {s0 : TStore} (s : TStore) (h : s0.Preserved s)
    (id : ℕ) (hid : s0.objs.length ≤ id) (sh : List ℕ) :
    s0.Preserved (s.writeMeta id sh) := by
  obtain ⟨t, l, w⟩ := h
  refine ⟨?_, ?_, ?_⟩
  · show (s.objs.set id _).take s0.objs.length = s0.objs
    rw [take_set_le _ _ _ _ hid, t]
  · show s0.objs.length ≤ (s.objs.set id _).length
    rw [List.length_set]
    exact l
  · intro x hx
    rcases List.mem_cons.mp hx with rfl | hx'
    · exact Or.inr hid
    · exact w x hx'

theorem preserved_foldl_tc {s0 : TStore} (l : List ℕ) :
    ∀ p : TStore × ℕ, s0.Preserved p.1 → s0.Preserved (l.foldl timeChannelStep p).1 := by
  induction l with
  | nil => exact fun p h => h
  | cons d l ih =>
    intro p h
    rw [List.foldl_cons]
    exact ih _ (preserved_allocView _ (preserved_allocView _ h _ _) _ _)

theorem preserved_foldl_write {α : Type} {s0 : TStore} (l : List α) (id : ℕ)
    (shf : TStore → List ℕ) (hid : s0.objs.length ≤ id) :
    ∀ s, s0.Preserved s →
      s0.Preserved (l.foldl (fun st _ => st.writeMeta id (shf st)) s) := by
  induction l with
  | nil => exact fun s h => h
  | cons x l ih =>
    intro s h
    rw [List.foldl_cons]
    exact ih _ (preserved_writeMeta s h id hid _)

theorem preserved_tracePre (it : Bool) (B1 B2 : List ℕ) (iT iP1 iP2 : ℕ) (s0 : TStore) :
    s0.Preserved (tracePre it B1 B2 iT iP1 iP2 s0) := by
  simp only [tracePre]
  apply preserved_allocFresh
  apply preserved_allocFresh
  apply preserved_allocView
  apply preserved_allocView
  apply preserved_iteFresh
  apply preserved_iteFresh
  apply preserved_foldl_tc
  apply preserved_foldl_tc
  exact preserved_allocView s0 (preserved_refl s0) _ _

theorem preserved_traceMid (it : Bool) (B1 B2 : List ℕ) (iT iP1 iP2 : ℕ) (s0 : TStore) :
    s0.Preserved (traceMid it B1 B2 iT iP1 iP2 s0) := by
  simp only [traceMid]
  apply preserved_allocView
  apply preserved_allocView
  exact preserved_tracePre it B1 B2 iT iP1 iP2 s0

theorem preserved_traceWrites (it : Bool) (B1 B2 : List ℕ) (iT iP1 iP2 : ℕ) (s0 : TStore) :
    s0.Preserved (traceWrites it B1 B2 iT iP1 iP2 s0) := by
  have hlen : s0.objs.length ≤ (tracePre it B1 B2 iT iP1 iP2 s0).objs.length :=
    (preserved_tracePre it B1 B2 iT iP1 iP2 s0).2.1
  simp only [traceWrites]
  apply preserved_foldl_write B2 _ _ hlen
  apply preserved_foldl_write B1 _ _ (le_trans hlen (Nat.le_succ _))
  exact preserved_traceMid it B1 B2 iT iP1 iP2 s0

theorem preserved_logsigForwardTrace (it pm : Bool) (B1 B2 : List ℕ)
    (iT iP1 iP2 : ℕ) (s0 : TStore) :
    s0.Preserved (logsigForwardTrace it pm B1 B2 iT iP1 iP2 s0) := by
  simp only [logsigForwardTrace]
  apply preserved_allocFresh
  apply preserved_iteFresh
  apply preserved_allocFresh
  apply preserved_allocView
  apply preserved_allocView
  exact preserved_traceWrites it B1 B2 iT iP1 iP2 s0

/-- C10: the object-store trace of `LogsignatureDiscrepancy.forward`
leaves every pre-existing object — `times`, `path1`, `path2`, the
parameter `self.linear`, and anything else allocated before the call —
with exactly its original shape metadata and buffer, and every in-place
metadata write it logs (the `unsqueeze_` loops of lines 201-204) targets
an object allocated during the call.  No operation of the trace writes
into an existing buffer: all value-producing steps allocate fresh
storage, and views only alias it. -/
theorem logsig_forward_frame (include_time pseudometric : Bool) (B1 B2 : List ℕ)
    (iTimes iP1 iP2 : ℕ) (s0 : TStore) :
    (∀ id, id < s0.objs.length →
      (logsigForwardTrace include_time pseudometric B1 B2 iTimes iP1 iP2 s0).objs.getD id ⟨[], 0⟩
        = s0.objs.getD id ⟨[], 0⟩) ∧
    ∀ id ∈ (logsigForwardTrace include_time pseudometric B1 B2 iTimes iP1 iP2 s0).metaWrites,
      id ∈ s0.metaWrites ∨ s0.objs.length ≤ id := by
  obtain ⟨ht, hl, hw⟩ :=
    preserved_logsigForwardTrace include_time pseudometric B1 B2 iTimes iP1 iP2 s0
  refine ⟨?_, hw⟩
  intro id hid
  rw [List.getD_eq_getElem?_getD, List.getD_eq_getElem?_getD]
  have h : ((logsigForwardTrace include_time pseudometric B1 B2 iTimes iP1 iP2
      s0).objs.take s0.objs.length)[id]?
      = (logsigForwardTrace include_time pseudometric B1 B2 iTimes iP1 iP2 s0).objs[id]? := by
    rw [List.getElem?_take, if_pos hid]
  rw [← h, ht]

/-- Witness for C10: after a call with batch shapes `(2,)`, `(3,)`,
`include_time=True` and a learnt pseudometric, input object 1 (`path1`)
is unchanged in a store of three input objects. -/
theorem logsig_forward_frame_witness :
    (logsigForwardTrace true true [2] [3] 0 1 2
        ⟨[⟨[5], 0⟩, ⟨[2, 5, 1], 1⟩, ⟨[5, 1], 2⟩], 3, []⟩).objs.getD 1 ⟨[], 0⟩
      = (⟨[⟨[5], 0⟩, ⟨[2, 5, 1], 1⟩, ⟨[5, 1], 2⟩], 3, []⟩ : TStore).objs.getD 1 ⟨[], 0⟩ :=
  (logsig_forward_frame true true [2] [3] 0 1 2
    ⟨[⟨[5], 0⟩, ⟨[2, 5, 1], 1⟩, ⟨[5, 1], 2⟩], 3, []⟩).1 1 (by decide)

/-- The pipeline result always has the outer-broadcast shape
`B1 ++ B2` (lines 205-215): its last axis is reduced away by the norm. -/
theorem logsigPipeline_shape (P : SignatureProvider) (cfg : LogsigConfig)
    (linear : Option Tensor) (B1 B2 : List ℕ) (q1 q2 : Tensor) :
    (logsigPipeline P cfg linear B1 B2 q1 q2).shape = B1 ++ B2 := by
  simp only [logsigPipeline]
  split_ifs <;>
    simp [Tensor.normLast, Tensor.sub, Tensor.matmulLast, Tensor.mulVecLast,
      Tensor.expand, ← List.append_assoc, List.dropLast_concat]

/-- Whenever `forward` returns a result, the result has the full
outer-broadcast shape `(B1..., B2...)` — in particular `(m, n)` for batch
shapes `(m,)` and `(n,)`, and `B2` alone when `path1` is unbatched. -/
theorem logsig_forward_shape (P : SignatureProvider) (cfg : LogsigConfig)
    (linear : Option Tensor) (times path1 path2 : Tensor) (out : RTensor)
    (hout : LogsignatureDiscrepancy.forward P cfg linear times path1 path2 = some out) :
    out.shape = path1.shape.dropLast.dropLast ++ path2.shape.dropLast.dropLast := by
  simp only [LogsignatureDiscrepancy.forward] at hout
  by_cases hit : cfg.include_time = true
  · simp only [hit, if_true] at hout
    rcases hcat1 : Tensor.catLast
        (broadcastTimeChannel path1.shape.dropLast.dropLast times.unsqueezeLast) path1
      with _ | q1
    · rw [hcat1] at hout
      simp at hout
    · rcases hcat2 : Tensor.catLast
          (broadcastTimeChannel path2.shape.dropLast.dropLast times.unsqueezeLast) path2
        with _ | q2
      · rw [hcat1, hcat2] at hout
        simp at hout
      · rw [hcat1, hcat2] at hout
        simp only [Option.some.injEq] at hout
        subst hout
        exact logsigPipeline_shape P cfg linear _ _ q1 q2
  · simp only [Bool.not_eq_true] at hit
    simp only [hit, Bool.false_eq_true, if_false, Option.some.injEq] at hout
    subst hout
    exact logsigPipeline_shape P cfg linear _ _ path1 path2

/-- With `include_time=False` the call of the C2 counterexample succeeds
and indeed returns the `(2, 2)` pairwise matrix. -/
theorem selfCallBatched_shape : (selfCallBatched.getD RTensor.null).shape = [2, 2] := by
  have h1 : selfCallBatched.getD RTensor.null
      = logsigPipeline incProvider cfgPlain none [2] [2] twoPaths twoPaths := rfl
  rw [h1, logsigPipeline_shape]
  rfl

/-- With rank-1 batch shapes the time-augmented call succeeds: for
`path1` of batch shape `(2,)` and `path2` of batch shape `(3,)` with
`include_time=True`, `forward` returns a tensor of shape `(2, 3)` — the
reversal bug of lines 184-187 is invisible for batch shapes of rank at
most 1, which is why the `(m,) x (n,)` broadcast law of the spec holds. -/
theorem logsig_forward_rank1_time_ok :
    (LogsignatureDiscrepancy.forward trivialProvider cfgTime none (zeros [2])
        (zeros [2, 2, 1]) (zeros [3, 2, 1])).isSome = true ∧
    ∀ out, LogsignatureDiscrepancy.forward trivialProvider cfgTime none (zeros [2])
        (zeros [2, 2, 1]) (zeros [3, 2, 1]) = some out → out.shape = [2, 3] := by
  constructor
  · rfl
  · intro out hout
    have h := logsig_forward_shape trivialProvider cfgTime none (zeros [2])
      (zeros [2, 2, 1]) (zeros [3, 2, 1]) out hout
    simpa using h

/-- A scalar-shaped pseudometric argument (the `pseudometric=False`
configuration of `L2Discrepancy.__init__`, line 83) makes the kernel's
pseudometric application the identity. -/
theorem applyPseudometric_scalar_id (e : List ℕ → ℚ) (v : List ℚ) :
    applyPseudometric ⟨[], e⟩ v = v := rfl
